import Mathlib

/-! product-service: the in-memory repository and the request handlers

A shallow embedding of `internal/models/product.go`,
`internal/database/memory.go`, `internal/database/cosmos.go` and
`api/handlers/product_handlers.go`.

* The Go map `map[string]models.Product` is an association list with unique
  keys (`AList`): `m[k]` is `lookup`, `m[k] = v` is `insert`, `delete(m, k)` is
  `erase`, and ranging over the map walks the entries.
* `time.Time` is an instant counted from the zero value `time.Time{}`.
* `float64` prices are the finite values a JSON number decodes to, taken as
  rationals; the code only ever compares a price with zero.
* `time.Now()` and `uuid.New().String()` are read from an explicit `Env`.
* The `sync.RWMutex` is held for the whole of each repository operation, so a
  sequential run of the operations is modelled as state passing.
-/

namespace ProductService

/-! ## internal/models/product.go -/

/-- An instant of `time.Time`; `0` is the zero value `time.Time{}`. -/
abbrev Time := Nat

/-- The struct `models.Product`. -/
structure Product where
  ID : String
  Name : String
  Description : String
  Price : Rat
  InventoryCount : Int
  CreatedAt : Time
  UpdatedAt : Time
deriving DecidableEq

/-- The struct `models.ProductAvailability`. -/
structure ProductAvailability where
  ProductID : String
  IsAvailable : Bool
  InventoryCount : Int
deriving DecidableEq

/-- A Go `error` value made by `errors.New(msg)`; `Error()` returns `msg`. -/
structure GoError where
  msg : String
deriving DecidableEq

deriving instance DecidableEq for Except

/-- The method `Error()` of a Go error. -/
def GoError.Error (e : GoError) : String := e.msg

/-- What the surroundings hand to one repository call: the value of
`uuid.New().String()` and the value of `time.Now()`. -/
structure Env where
  uuid : String
  now : Time

/-! ## internal/database/memory.go -/

/-- The error `errors.New("product not found")`. -/
def errNotFound : GoError := ⟨"product not found"⟩

/-- The error `errors.New("product with this ID already exists")`. -/
def errAlreadyExists : GoError := ⟨"product with this ID already exists"⟩

/-- The struct `InMemoryRepository`: the field `products`. -/
structure InMemoryRepository where
  products : AList (fun _ : String => Product)

/-- The constructor `NewInMemoryRepository`: an empty map. -/
def NewInMemoryRepository : InMemoryRepository := ⟨∅⟩

/-- The method `GetProducts`: appends every value of the map to a slice. -/
def InMemoryRepository.GetProducts (r : InMemoryRepository) :
    Except GoError (List Product) :=
  .ok (r.products.entries.map (fun e => e.2))

/-- The method `GetProductByID`. -/
def InMemoryRepository.GetProductByID (r : InMemoryRepository) (id : String) :
    Except GoError Product :=
  match r.products.lookup id with
  | none => .error errNotFound
  | some product => .ok product

/-- The method `CreateProduct`: the returned pair is the Go result and the
repository after the call. -/
def InMemoryRepository.CreateProduct (r : InMemoryRepository) (env : Env)
    (product : Product) : Except GoError Product × InMemoryRepository :=
  let product := if product.ID = "" then { product with ID := env.uuid } else product
  let exists_ := (r.products.lookup product.ID).isSome
  if exists_ then (.error errAlreadyExists, r)
  else
    let now := env.now
    let product := { product with CreatedAt := now, UpdatedAt := now }
    (.ok product, ⟨r.products.insert product.ID product⟩)

/-- The method `UpdateProduct`. -/
def InMemoryRepository.UpdateProduct (r : InMemoryRepository) (env : Env)
    (product : Product) : Except GoError Unit × InMemoryRepository :=
  let exists_ := (r.products.lookup product.ID).isSome
  if !exists_ then (.error errNotFound, r)
  else
    let product := { product with UpdatedAt := env.now }
    (.ok (), ⟨r.products.insert product.ID product⟩)

/-- The method `DeleteProduct`. -/
def InMemoryRepository.DeleteProduct (r : InMemoryRepository) (id : String) :
    Except GoError Unit × InMemoryRepository :=
  let exists_ := (r.products.lookup id).isSome
  if !exists_ then (.error errNotFound, r)
  else (.ok (), ⟨r.products.erase id⟩)

/-- The method `CheckProductAvailability`. -/
def InMemoryRepository.CheckProductAvailability (r : InMemoryRepository) (id : String) :
    Except GoError ProductAvailability :=
  match r.GetProductByID id with
  | .error err => .error err
  | .ok product =>
    .ok { ProductID := product.ID
          InventoryCount := product.InventoryCount
          IsAvailable := decide (product.InventoryCount > 0) }

/-- The interface `ProductRepository`, over the state `σ` of an implementation:
every method returns its Go result and the state after the call. -/
structure ProductRepository (σ : Type) where
  GetProducts : σ → Except GoError (List Product) × σ
  GetProductByID : σ → String → Except GoError Product × σ
  CreateProduct : σ → Env → Product → Except GoError Product × σ
  UpdateProduct : σ → Env → Product → Except GoError Unit × σ
  DeleteProduct : σ → String → Except GoError Unit × σ
  CheckProductAvailability : σ → String → Except GoError ProductAvailability × σ

/-- The struct `InMemoryRepository` as an implementation of `ProductRepository`:
the three reading methods take the read lock and leave the map as it is. -/
def InMemoryRepository.repo : ProductRepository InMemoryRepository where
  GetProducts := fun r => (r.GetProducts, r)
  GetProductByID := fun r id => (r.GetProductByID id, r)
  CreateProduct := fun r env product => r.CreateProduct env product
  UpdateProduct := fun r env product => r.UpdateProduct env product
  DeleteProduct := fun r id => r.DeleteProduct id
  CheckProductAvailability := fun r id => (r.CheckProductAvailability id, r)

/-! ## internal/database/cosmos.go -/

/-- The struct `CosmosDBRepository`: it has no fields. -/
structure CosmosDBRepository where
deriving DecidableEq

/-- The error `errors.New("not implemented")` of every placeholder method. -/
def errNotImplemented : GoError := ⟨"not implemented"⟩

/-- The struct `CosmosDBRepository` as an implementation of `ProductRepository`:
every method returns the error and nothing else. -/
def CosmosDBRepository.repo : ProductRepository CosmosDBRepository where
  GetProducts := fun r => (.error errNotImplemented, r)
  GetProductByID := fun r _ => (.error errNotImplemented, r)
  CreateProduct := fun r _ _ => (.error errNotImplemented, r)
  UpdateProduct := fun r _ _ => (.error errNotImplemented, r)
  DeleteProduct := fun r _ => (.error errNotImplemented, r)
  CheckProductAvailability := fun r _ => (.error errNotImplemented, r)

/-! ## Request binding: the `binding` tags of `models.Product`

`c.ShouldBindJSON(&product)` decodes the body with `encoding/json` (a field the
body leaves out keeps its zero value) and then runs the validator over the
`binding` tags. A field's tags are tried left to right and the first failing
tag is reported. The tag `required` fails on the zero value of the field's
type: the empty string, the number `0`. -/

/-- One failed tag of one field (`validator.FieldError`). -/
structure FieldError where
  field : String
  tag : String
deriving DecidableEq

/-- The tag `required` on a string field. -/
def requiredString (v : String) : Bool := decide (v ≠ "")

/-- The tag `required` on a `float64` field. -/
def requiredFloat (v : Rat) : Bool := decide (v ≠ 0)

/-- The tag `required` on an `int` field. -/
def requiredInt (v : Int) : Bool := decide (v ≠ 0)

/-- The tag `gt=0` on a `float64` field. -/
def gtZero (v : Rat) : Bool := decide (v > 0)

/-- The tag `gte=0` on an `int` field. -/
def gteZero (v : Int) : Bool := decide (v ≥ 0)

/-- Field `Name`, tags `binding:"required"`. -/
def validateName (p : Product) : List FieldError :=
  if requiredString p.Name then [] else [⟨"Name", "required"⟩]

/-- Field `Description`, tags `binding:"required"`. -/
def validateDescription (p : Product) : List FieldError :=
  if requiredString p.Description then [] else [⟨"Description", "required"⟩]

/-- Field `Price`, tags `binding:"required,gt=0"`. -/
def validatePrice (p : Product) : List FieldError :=
  if requiredFloat p.Price then
    (if gtZero p.Price then [] else [⟨"Price", "gt"⟩])
  else [⟨"Price", "required"⟩]

/-- Field `InventoryCount`, tags `binding:"required,gte=0"`. -/
def validateInventoryCount (p : Product) : List FieldError :=
  if requiredInt p.InventoryCount then
    (if gteZero p.InventoryCount then [] else [⟨"InventoryCount", "gte"⟩])
  else [⟨"InventoryCount", "required"⟩]

/-- The failed tags of a decoded `models.Product`, in field order. The fields
`ID`, `CreatedAt` and `UpdatedAt` carry no `binding` tag. -/
def validate (p : Product) : List FieldError :=
  validateName p ++ validateDescription p ++ validatePrice p ++ validateInventoryCount p

/-- The text of one `validator.FieldError`. -/
def FieldError.Error (e : FieldError) : String :=
  let q := String.singleton (Char.ofNat 39)
  "Key: " ++ q ++ "Product." ++ e.field ++ q ++ " Error:Field validation for " ++ q ++
    e.field ++ q ++ " failed on the " ++ q ++ e.tag ++ q ++ " tag"

/-- The error of a non-empty `validator.ValidationErrors`: one line per failed
tag. -/
def validationError (es : List FieldError) : GoError :=
  ⟨String.intercalate "\n" (es.map FieldError.Error)⟩

/-- The call `c.ShouldBindJSON(&product)`: `decoded` is what `encoding/json`
made of the body, a decoding error or the struct. -/
def ShouldBindJSON (decoded : Except GoError Product) : Except GoError Product :=
  match decoded with
  | .error err => .error err
  | .ok product =>
    match validate product with
    | [] => .ok product
    | e :: es => .error (validationError (e :: es))

/-! ## api/handlers/product_handlers.go -/

/-- What a handler reads from `gin.Context`: the path parameter `id` and the
request body as decoded into `models.Product`. -/
structure Context where
  id : String
  body : Except GoError Product

/-- The JSON value a handler writes. -/
inductive ResponseBody where
  | empty
  | errorObject (error : String)
  | product (p : Product)
  | products (ps : List Product)
  | availability (a : ProductAvailability)
deriving DecidableEq

/-- The HTTP response of a handler. -/
structure Response where
  status : Nat
  body : ResponseBody
deriving DecidableEq

def StatusOK : Nat := 200
def StatusCreated : Nat := 201
def StatusNoContent : Nat := 204
def StatusBadRequest : Nat := 400
def StatusNotFound : Nat := 404
def StatusInternalServerError : Nat := 500

/-- The struct `ProductHandler`: the field `repo`. -/
structure ProductHandler (σ : Type) where
  repo : ProductRepository σ

/-- The constructor `NewProductHandler`. -/
def NewProductHandler {σ : Type} (repo : ProductRepository σ) : ProductHandler σ := ⟨repo⟩

/-- The handler `GetProducts`. -/
def ProductHandler.GetProducts {σ : Type} (h : ProductHandler σ) (s : σ) : Response × σ :=
  match h.repo.GetProducts s with
  | (.error err, s1) => (⟨StatusInternalServerError, .errorObject err.Error⟩, s1)
  | (.ok products, s1) => (⟨StatusOK, .products products⟩, s1)

/-- The handler `GetProductByID`. -/
def ProductHandler.GetProductByID {σ : Type} (h : ProductHandler σ) (s : σ) (c : Context) :
    Response × σ :=
  let id := c.id
  match h.repo.GetProductByID s id with
  | (.error _, s1) => (⟨StatusNotFound, .errorObject "Product not found"⟩, s1)
  | (.ok product, s1) => (⟨StatusOK, .product product⟩, s1)

/-- The handler `CreateProduct`. -/
def ProductHandler.CreateProduct {σ : Type} (h : ProductHandler σ) (s : σ) (env : Env)
    (c : Context) : Response × σ :=
  match ShouldBindJSON c.body with
  | .error err => (⟨StatusBadRequest, .errorObject err.Error⟩, s)
  | .ok product =>
    match h.repo.CreateProduct s env product with
    | (.error err, s1) => (⟨StatusInternalServerError, .errorObject err.Error⟩, s1)
    | (.ok createdProduct, s1) => (⟨StatusCreated, .product createdProduct⟩, s1)

/-- The handler `UpdateProduct`. -/
def ProductHandler.UpdateProduct {σ : Type} (h : ProductHandler σ) (s : σ) (env : Env)
    (c : Context) : Response × σ :=
  let id := c.id
  match ShouldBindJSON c.body with
  | .error err => (⟨StatusBadRequest, .errorObject err.Error⟩, s)
  | .ok product =>
    let product := { product with ID := id }
    match h.repo.GetProductByID s id with
    | (.error _, s1) => (⟨StatusNotFound, .errorObject "Product not found"⟩, s1)
    | (.ok _, s1) =>
      match h.repo.UpdateProduct s1 env product with
      | (.error err, s2) => (⟨StatusInternalServerError, .errorObject err.Error⟩, s2)
      | (.ok _, s2) => (⟨StatusOK, .product product⟩, s2)

/-- The handler `DeleteProduct`. -/
def ProductHandler.DeleteProduct {σ : Type} (h : ProductHandler σ) (s : σ) (c : Context) :
    Response × σ :=
  let id := c.id
  match h.repo.GetProductByID s id with
  | (.error _, s1) => (⟨StatusNotFound, .errorObject "Product not found"⟩, s1)
  | (.ok _, s1) =>
    match h.repo.DeleteProduct s1 id with
    | (.error err, s2) => (⟨StatusInternalServerError, .errorObject err.Error⟩, s2)
    | (.ok _, s2) => (⟨StatusNoContent, .empty⟩, s2)

/-- The handler `CheckProductAvailability`. -/
def ProductHandler.CheckProductAvailability {σ : Type} (h : ProductHandler σ) (s : σ)
    (c : Context) : Response × σ :=
  let id := c.id
  match h.repo.CheckProductAvailability s id with
  | (.error _, s1) => (⟨StatusNotFound, .errorObject "Product not found"⟩, s1)
  | (.ok availability, s1) => (⟨StatusOK, .availability availability⟩, s1)

/-- The handler of `setupRouter` and `main`: a `ProductHandler` over the
in-memory repository. -/
def memoryHandler : ProductHandler InMemoryRepository :=
  NewProductHandler InMemoryRepository.repo

/-- A `ProductHandler` over the placeholder repository, as `GetGinEngine` builds
it when handed a `CosmosDBRepository`. -/
def cosmosHandler : ProductHandler CosmosDBRepository :=
  NewProductHandler CosmosDBRepository.repo

/-! ## Stores used as concrete inputs -/

/-- A product as a client would send it, with no id and no timestamps. -/
def laptop : Product :=
  { ID := "", Name := "Laptop", Description := "x", Price := 1299, InventoryCount := 10,
    CreatedAt := 0, UpdatedAt := 0 }

/-- The repository after `CreateProduct` of `laptop` with generated id `"u1"` at
instant `5`. -/
def repo1 : InMemoryRepository :=
  (NewInMemoryRepository.CreateProduct ⟨"u1", 5⟩ laptop).2

/-- A second product, with no stock. -/
def phone : Product :=
  { ID := "", Name := "Phone", Description := "y", Price := 499, InventoryCount := 0,
    CreatedAt := 0, UpdatedAt := 0 }

/-- The repository `repo1` after `CreateProduct` of `phone` with generated id
`"u2"` at instant `7`. -/
def repo2 : InMemoryRepository :=
  (repo1.CreateProduct ⟨"u2", 7⟩ phone).2

/-- The id under which `CreateProduct` stores: a generated one when the caller
gave none. -/
def createID (env : Env) (p : Product) : String := if p.ID = "" then env.uuid else p.ID

/-- A map is well keyed when every entry is stored under its own product's id. -/
def WellKeyed (r : InMemoryRepository) : Prop :=
  ∀ k p, r.products.lookup k = some p → p.ID = k

/-- Every entry is stored under its own product's id, and that id is not the
empty string. -/
def KeyedByNonEmptyID (r : InMemoryRepository) : Prop :=
  ∀ k p, r.products.lookup k = some p → p.ID = k ∧ k ≠ ""

/-! ## Runs of the mutating methods -/

/-- One call of a mutating method of the repository, with what the surroundings
hand to it. -/
inductive Call where
  | create (env : Env) (product : Product)
  | update (env : Env) (product : Product)
  | delete (id : String)

/-- The repository after one call. -/
def Call.apply (r : InMemoryRepository) : Call → InMemoryRepository
  | .create env product => (r.CreateProduct env product).2
  | .update env product => (r.UpdateProduct env product).2
  | .delete id => (r.DeleteProduct id).2

/-- The repository reached from `NewInMemoryRepository` by a sequence of calls. -/
def run (calls : List Call) : InMemoryRepository :=
  calls.foldl Call.apply NewInMemoryRepository

/-- The ids `uuid.New().String()` hands out are non-empty: every `create` call
of the sequence is given a non-empty generated id. -/
def GeneratedIDsNonEmpty (calls : List Call) : Prop :=
  ∀ c ∈ calls, ∀ env product, c = Call.create env product → env.uuid ≠ ""

/-- A sequence of calls: two creates without id, an update with an
empty id, an update of `"u1"`, a create under the explicit id `"u2"` again and a
delete. -/
def sampleCalls : List Call :=
  [.create ⟨"u1", 5⟩ laptop, .create ⟨"u2", 7⟩ phone, .update ⟨"", 8⟩ phone,
    .update ⟨"", 9⟩ { laptop with ID := "u1", Name := "Updated Product" },
    .create ⟨"u3", 10⟩ { phone with ID := "u2" }, .delete "u2"]

/-! ## Lemmas on the map -/

theorem getProductByID_of_lookup {r : InMemoryRepository} {id : String} {p : Product}
    (h : r.products.lookup id = some p) : r.GetProductByID id = .ok p := by
  simp [InMemoryRepository.GetProductByID, h]

theorem getProductByID_of_absent {r : InMemoryRepository} {id : String}
    (h : r.products.lookup id = none) : r.GetProductByID id = .error errNotFound := by
  simp [InMemoryRepository.GetProductByID, h]

theorem mem_values_iff (m : AList (fun _ : String => Product)) (q : Product) :
    q ∈ m.entries.map (fun e => e.2) ↔ ∃ k, m.lookup k = some q := by
  constructor
  · intro h
    obtain ⟨e, he, rfl⟩ := List.mem_map.1 h
    exact ⟨e.1, AList.mem_lookup_iff.2 he⟩
  · rintro ⟨k, hk⟩
    exact List.mem_map.2 ⟨⟨k, q⟩, AList.mem_lookup_iff.1 hk, rfl⟩

theorem createProduct_assign (env : Env) (p : Product) :
    (if p.ID = "" then { p with ID := env.uuid } else p) = { p with ID := createID env p } := by
  unfold createID
  split_ifs with h
  · rfl
  · rfl

theorem createProduct_of_absent (r : InMemoryRepository) (env : Env) (p : Product)
    (h : r.products.lookup (createID env p) = none) :
    r.CreateProduct env p =
      (.ok { p with ID := createID env p, CreatedAt := env.now, UpdatedAt := env.now },
        ⟨r.products.insert (createID env p)
          { p with ID := createID env p, CreatedAt := env.now, UpdatedAt := env.now }⟩) := by
  unfold InMemoryRepository.CreateProduct
  rw [createProduct_assign]
  simp [h]

theorem createProduct_of_present (r : InMemoryRepository) (env : Env) (p p0 : Product)
    (h : r.products.lookup (createID env p) = some p0) :
    r.CreateProduct env p = (.error errAlreadyExists, r) := by
  unfold InMemoryRepository.CreateProduct
  rw [createProduct_assign]
  simp [h]

theorem updateProduct_of_present (r : InMemoryRepository) (env : Env) (p p0 : Product)
    (h : r.products.lookup p.ID = some p0) :
    r.UpdateProduct env p =
      (.ok (), ⟨r.products.insert p.ID { p with UpdatedAt := env.now }⟩) := by
  simp [InMemoryRepository.UpdateProduct, h]

theorem updateProduct_of_absent (r : InMemoryRepository) (env : Env) (p : Product)
    (h : r.products.lookup p.ID = none) :
    r.UpdateProduct env p = (.error errNotFound, r) := by
  simp [InMemoryRepository.UpdateProduct, h]

theorem deleteProduct_of_present (r : InMemoryRepository) (id : String) (p0 : Product)
    (h : r.products.lookup id = some p0) :
    r.DeleteProduct id = (.ok (), ⟨r.products.erase id⟩) := by
  simp [InMemoryRepository.DeleteProduct, h]

theorem deleteProduct_of_absent (r : InMemoryRepository) (id : String)
    (h : r.products.lookup id = none) :
    r.DeleteProduct id = (.error errNotFound, r) := by
  simp [InMemoryRepository.DeleteProduct, h]

theorem wellKeyed_insert {r : InMemoryRepository} (hkeys : WellKeyed r) (q : Product) :
    WellKeyed ⟨r.products.insert q.ID q⟩ := by
  intro k p hk
  by_cases hkq : k = q.ID
  · subst hkq
    rw [AList.lookup_insert] at hk
    injection hk with hk
    rw [← hk]
  · rw [AList.lookup_insert_ne hkq] at hk
    exact hkeys k p hk

theorem wellKeyed_new : WellKeyed NewInMemoryRepository := by
  intro k p hk
  simp [NewInMemoryRepository] at hk

theorem wellKeyed_createProduct {r : InMemoryRepository} (hkeys : WellKeyed r) (env : Env)
    (p : Product) : WellKeyed (r.CreateProduct env p).2 := by
  cases hl : r.products.lookup (createID env p) with
  | some p0 =>
    rw [createProduct_of_present r env p p0 hl]
    exact hkeys
  | none =>
    rw [createProduct_of_absent r env p hl]
    exact wellKeyed_insert hkeys
      { p with ID := createID env p, CreatedAt := env.now, UpdatedAt := env.now }

theorem wellKeyed_updateProduct {r : InMemoryRepository} (hkeys : WellKeyed r) (env : Env)
    (p : Product) : WellKeyed (r.UpdateProduct env p).2 := by
  cases hl : r.products.lookup p.ID with
  | some p0 =>
    rw [updateProduct_of_present r env p p0 hl]
    exact wellKeyed_insert hkeys { p with UpdatedAt := env.now }
  | none =>
    rw [updateProduct_of_absent r env p hl]
    exact hkeys

theorem wellKeyed_deleteProduct {r : InMemoryRepository} (hkeys : WellKeyed r)
    (id : String) : WellKeyed (r.DeleteProduct id).2 := by
  cases hl : r.products.lookup id with
  | some p0 =>
    rw [deleteProduct_of_present r id p0 hl]
    intro k p hk
    have hne : k ≠ id := by
      rintro rfl
      rw [AList.lookup_erase] at hk
      cases hk
    rw [AList.lookup_erase_ne hne] at hk
    exact hkeys k p hk
  | none =>
    rw [deleteProduct_of_absent r id hl]
    exact hkeys

/-! ## The repository: create, read, update, delete -/

/-- C1: if `CreateProduct(p)` succeeds and returns `q`, then `GetProductByID(q.ID)`
on the resulting store succeeds and returns exactly `q`; `q.ID` is non-empty
(the generated id being a non-empty string) and `q.CreatedAt = q.UpdatedAt` is
the creation time. -/
theorem createProduct_then_getProductByID (r : InMemoryRepository) (env : Env)
    (p q : Product) (hgen : env.uuid ≠ "")
    (hcreate : (r.CreateProduct env p).1 = .ok q) :
    (r.CreateProduct env p).2.GetProductByID q.ID = .ok q ∧ q.ID ≠ "" ∧
      q.CreatedAt = env.now ∧ q.UpdatedAt = env.now := by
  cases hl : r.products.lookup (createID env p) with
  | some p0 =>
    rw [createProduct_of_present r env p p0 hl] at hcreate
    cases hcreate
  | none =>
    rw [createProduct_of_absent r env p hl] at hcreate ⊢
    injection hcreate with hq
    subst hq
    refine ⟨getProductByID_of_lookup (AList.lookup_insert _), ?_, rfl, rfl⟩
    show createID env p ≠ ""
    unfold createID
    split_ifs with hid
    · exact hgen
    · exact hid

/-- Witness of C1: creating `laptop` in the empty repository with generated id
`"u1"` at instant `5`. -/
theorem createProduct_then_getProductByID_witness :
    (repo1.GetProductByID "u1" =
        .ok { laptop with ID := "u1", CreatedAt := 5, UpdatedAt := 5 }) ∧
      ("u1" ≠ "" ∧ (5 : Time) = 5 ∧ (5 : Time) = 5) :=
  createProduct_then_getProductByID NewInMemoryRepository ⟨"u1", 5⟩ laptop
    { laptop with ID := "u1", CreatedAt := 5, UpdatedAt := 5 } (by decide) (by decide)

/-- C2, as the spec states it, fails: the product stored under `"u1"` was
created at instant `5`; after a successful `UpdateProduct` whose payload carries
the zero `CreatedAt`, the stored `CreatedAt` is `0`, not `5`. -/
theorem updateProduct_createdAt_counterexample :
    repo1.GetProductByID "u1" =
        .ok { laptop with ID := "u1", CreatedAt := 5, UpdatedAt := 5 } ∧
      (repo1.UpdateProduct ⟨"", 9⟩ { laptop with ID := "u1" }).1 = .ok () ∧
      (repo1.UpdateProduct ⟨"", 9⟩ { laptop with ID := "u1" }).2.GetProductByID "u1" =
        .ok { laptop with ID := "u1", CreatedAt := 0, UpdatedAt := 9 } ∧
      (0 : Time) ≠ 5 := by
  decide

/-- C2, amended: after `UpdateProduct(p)` succeeds on a store that holds a
product under `p.ID`, the stored product's `CreatedAt` is the one the payload
`p` carries (the zero value included); it is the value it had before the update
exactly when the payload carries that value. -/
theorem updateProduct_createdAt_from_payload (r : InMemoryRepository) (env : Env)
    (p p0 : Product) (hstored : r.products.lookup p.ID = some p0) :
    (r.UpdateProduct env p).1 = .ok () ∧
      ∃ q, (r.UpdateProduct env p).2.GetProductByID p.ID = .ok q ∧
        q.CreatedAt = p.CreatedAt ∧
        (q.CreatedAt = p0.CreatedAt ↔ p.CreatedAt = p0.CreatedAt) := by
  rw [updateProduct_of_present r env p p0 hstored]
  refine ⟨rfl, { p with UpdatedAt := env.now }, ?_, rfl, Iff.rfl⟩
  exact getProductByID_of_lookup (AList.lookup_insert _)

/-- Witness of C2 amended: the update of the counterexample. -/
theorem updateProduct_createdAt_from_payload_witness :
    (repo1.UpdateProduct ⟨"", 9⟩ { laptop with ID := "u1" }).1 = .ok () ∧
      ∃ q, (repo1.UpdateProduct ⟨"", 9⟩ { laptop with ID := "u1" }).2.GetProductByID "u1" =
          .ok q ∧
        q.CreatedAt = 0 ∧ (q.CreatedAt = 5 ↔ (0 : Time) = 5) :=
  updateProduct_createdAt_from_payload repo1 ⟨"", 9⟩ { laptop with ID := "u1" }
    { laptop with ID := "u1", CreatedAt := 5, UpdatedAt := 5 } (by decide)

/-- C4: when the non-empty id of `p` is already stored, `CreateProduct(p)` fails
with the already-exists error and the store is what it was: the entry under
that id and every other entry. -/
theorem createProduct_existing_id (r : InMemoryRepository) (env : Env) (p p0 : Product)
    (hid : p.ID ≠ "") (hstored : r.products.lookup p.ID = some p0) :
    (r.CreateProduct env p).1 = .error errAlreadyExists ∧ (r.CreateProduct env p).2 = r ∧
      (r.CreateProduct env p).2.products.lookup p.ID = some p0 ∧
      ∀ k, (r.CreateProduct env p).2.products.lookup k = r.products.lookup k := by
  have hc : createID env p = p.ID := by unfold createID; rw [if_neg hid]
  rw [createProduct_of_present r env p p0 (by rw [hc]; exact hstored)]
  exact ⟨rfl, rfl, hstored, fun _ => rfl⟩

/-- Witness of C4: creating a product with the stored id `"u1"` again. -/
theorem createProduct_existing_id_witness :
    (repo1.CreateProduct ⟨"u2", 9⟩ { laptop with ID := "u1", Name := "Other" }).1 =
        .error errAlreadyExists ∧
      (repo1.CreateProduct ⟨"u2", 9⟩ { laptop with ID := "u1", Name := "Other" }).2 = repo1 ∧
      (repo1.CreateProduct ⟨"u2", 9⟩
          { laptop with ID := "u1", Name := "Other" }).2.products.lookup "u1" =
        some { laptop with ID := "u1", CreatedAt := 5, UpdatedAt := 5 } ∧
      ∀ k, (repo1.CreateProduct ⟨"u2", 9⟩
          { laptop with ID := "u1", Name := "Other" }).2.products.lookup k =
        repo1.products.lookup k :=
  createProduct_existing_id repo1 ⟨"u2", 9⟩ { laptop with ID := "u1", Name := "Other" }
    { laptop with ID := "u1", CreatedAt := 5, UpdatedAt := 5 } (by decide) (by decide)

/-- C5: for an id that is not in the store, `GetProductByID`, `UpdateProduct`
of a product with that id, `DeleteProduct` and `CheckProductAvailability` each
fail with the not-found error, and the failing `UpdateProduct` and
`DeleteProduct` leave the store as it was. -/
theorem absent_id_not_found (r : InMemoryRepository) (env : Env) (id : String) (p : Product)
    (habsent : id ∉ r.products) (hp : p.ID = id) :
    r.GetProductByID id = .error errNotFound ∧
      r.UpdateProduct env p = (.error errNotFound, r) ∧
      r.DeleteProduct id = (.error errNotFound, r) ∧
      r.CheckProductAvailability id = .error errNotFound := by
  have hl : r.products.lookup id = none := AList.lookup_eq_none.2 habsent
  refine ⟨getProductByID_of_absent hl, updateProduct_of_absent r env p (by rw [hp]; exact hl),
    deleteProduct_of_absent r id hl, ?_⟩
  simp [InMemoryRepository.CheckProductAvailability, getProductByID_of_absent hl]

/-- Witness of C5: the id `"zz"` is not in `repo1`. -/
theorem absent_id_not_found_witness :
    repo1.GetProductByID "zz" = .error errNotFound ∧
      repo1.UpdateProduct ⟨"", 9⟩ { laptop with ID := "zz" } = (.error errNotFound, repo1) ∧
      repo1.DeleteProduct "zz" = (.error errNotFound, repo1) ∧
      repo1.CheckProductAvailability "zz" = .error errNotFound :=
  absent_id_not_found repo1 ⟨"", 9⟩ "zz" { laptop with ID := "zz" } (by decide) rfl

/-- C6: on a store holding a product under `p.ID`, `UpdateProduct(p)` succeeds;
afterwards `GetProductByID(p.ID)` returns `p` with `UpdatedAt` set to the time of
the call, so name, description, price and inventory count are those of `p`, and
`UpdatedAt` is strictly greater than before whenever the clock has advanced past
the previous stamp; the entries under every other id are unchanged. -/
theorem updateProduct_replaces (r : InMemoryRepository) (env : Env) (p p0 : Product)
    (hstored : r.products.lookup p.ID = some p0) :
    (r.UpdateProduct env p).1 = .ok () ∧
      ∃ q, (r.UpdateProduct env p).2.GetProductByID p.ID = .ok q ∧
        q = { p with UpdatedAt := env.now } ∧
        q.Name = p.Name ∧ q.Description = p.Description ∧ q.Price = p.Price ∧
        q.InventoryCount = p.InventoryCount ∧ q.UpdatedAt = env.now ∧
        (p0.UpdatedAt < env.now → p0.UpdatedAt < q.UpdatedAt) ∧
        ∀ k, k ≠ p.ID →
          (r.UpdateProduct env p).2.products.lookup k = r.products.lookup k := by
  rw [updateProduct_of_present r env p p0 hstored]
  refine ⟨rfl, { p with UpdatedAt := env.now }, ?_, rfl, rfl, rfl, rfl, rfl, rfl,
    fun h => h, fun k hk => AList.lookup_insert_ne hk⟩
  exact getProductByID_of_lookup (AList.lookup_insert _)

/-- Witness of C6: renaming the product stored under `"u1"` at instant `9`. -/
theorem updateProduct_replaces_witness :
    (repo1.UpdateProduct ⟨"", 9⟩ { laptop with ID := "u1", Name := "Updated Product" }).1 =
        .ok () ∧
      ∃ q, (repo1.UpdateProduct ⟨"", 9⟩
            { laptop with ID := "u1", Name := "Updated Product" }).2.GetProductByID "u1" =
          .ok q ∧
        q = { laptop with ID := "u1", Name := "Updated Product", UpdatedAt := 9 } ∧
        q.Name = "Updated Product" ∧ q.Description = "x" ∧ q.Price = 1299 ∧
        q.InventoryCount = 10 ∧ q.UpdatedAt = 9 ∧
        ((5 : Time) < 9 → (5 : Time) < q.UpdatedAt) ∧
        ∀ k, k ≠ "u1" →
          (repo1.UpdateProduct ⟨"", 9⟩
            { laptop with ID := "u1", Name := "Updated Product" }).2.products.lookup k =
          repo1.products.lookup k :=
  updateProduct_replaces repo1 ⟨"", 9⟩ { laptop with ID := "u1", Name := "Updated Product" }
    { laptop with ID := "u1", CreatedAt := 5, UpdatedAt := 5 } (by decide)

/-- C7: on a well-keyed store holding a product under `id`, `DeleteProduct(id)`
succeeds; afterwards `GetProductByID(id)` fails with the not-found error,
`GetProducts()` returns exactly the products it returned before whose id is not
`id`, and every other id still reads the product it read before. -/
theorem deleteProduct_removes (r : InMemoryRepository) (id : String) (p0 : Product)
    (hkeys : WellKeyed r) (hstored : r.products.lookup id = some p0) :
    (r.DeleteProduct id).1 = .ok () ∧
      (r.DeleteProduct id).2.GetProductByID id = .error errNotFound ∧
      (∃ ps ps1, r.GetProducts = .ok ps ∧ (r.DeleteProduct id).2.GetProducts = .ok ps1 ∧
        (∀ q ∈ ps1, q.ID ≠ id) ∧ ∀ q, q ∈ ps1 ↔ q ∈ ps ∧ q.ID ≠ id) ∧
      ∀ k, k ≠ id → (r.DeleteProduct id).2.GetProductByID k = r.GetProductByID k := by
  rw [deleteProduct_of_present r id p0 hstored]
  have hmem : ∀ q, q ∈ (r.products.erase id).entries.map (fun e => e.2) ↔
      q ∈ r.products.entries.map (fun e => e.2) ∧ q.ID ≠ id := by
    intro q
    rw [mem_values_iff, mem_values_iff]
    constructor
    · rintro ⟨k, hk⟩
      have hne : k ≠ id := by
        rintro rfl
        rw [AList.lookup_erase] at hk
        cases hk
      rw [AList.lookup_erase_ne hne] at hk
      exact ⟨⟨k, hk⟩, by rw [hkeys k q hk]; exact hne⟩
    · rintro ⟨⟨k, hk⟩, hq⟩
      have hne : k ≠ id := by rw [← hkeys k q hk]; exact hq
      exact ⟨k, by rw [AList.lookup_erase_ne hne]; exact hk⟩
  refine ⟨rfl, getProductByID_of_absent (AList.lookup_erase _ _), ?_, ?_⟩
  · exact ⟨_, _, rfl, rfl, fun q hq => ((hmem q).1 hq).2, hmem⟩
  · intro k hk
    simp only [InMemoryRepository.GetProductByID]
    rw [AList.lookup_erase_ne hk]

/-- Witness of C7: deleting `"u1"` from the store of two products `repo2`. -/
theorem deleteProduct_removes_witness :
    WellKeyed repo2 ∧
      ((repo2.DeleteProduct "u1").1 = .ok () ∧
        (repo2.DeleteProduct "u1").2.GetProductByID "u1" = .error errNotFound ∧
        (∃ ps ps1, repo2.GetProducts = .ok ps ∧
          (repo2.DeleteProduct "u1").2.GetProducts = .ok ps1 ∧
          (∀ q ∈ ps1, q.ID ≠ "u1") ∧ ∀ q, q ∈ ps1 ↔ q ∈ ps ∧ q.ID ≠ "u1") ∧
        ∀ k, k ≠ "u1" →
          (repo2.DeleteProduct "u1").2.GetProductByID k = repo2.GetProductByID k) :=
  ⟨wellKeyed_createProduct (wellKeyed_createProduct wellKeyed_new _ _) _ _,
    deleteProduct_removes repo2 "u1" { laptop with ID := "u1", CreatedAt := 5, UpdatedAt := 5 }
      (wellKeyed_createProduct (wellKeyed_createProduct wellKeyed_new _ _) _ _) (by decide)⟩

/-- C8: for a product stored under its own id `i` with inventory count `n`,
`CheckProductAvailability(i)` succeeds with `ProductID = i`,
`InventoryCount = n` and `IsAvailable = (n > 0)`: false for `n = 0`, true for
`n = 1`; it is the availability of the product `GetProductByID(i)` returns. -/
theorem checkProductAvailability_stored (r : InMemoryRepository) (i : String) (n : Int)
    (p : Product) (hstored : r.products.lookup i = some p) (hid : p.ID = i)
    (hn : p.InventoryCount = n) :
    r.CheckProductAvailability i =
        .ok { ProductID := i, IsAvailable := decide (n > 0), InventoryCount := n } ∧
      (n = 0 → r.CheckProductAvailability i =
        .ok { ProductID := i, IsAvailable := false, InventoryCount := 0 }) ∧
      (n = 1 → r.CheckProductAvailability i =
        .ok { ProductID := i, IsAvailable := true, InventoryCount := 1 }) ∧
      ∃ q, r.GetProductByID i = .ok q ∧
        r.CheckProductAvailability i =
          .ok { ProductID := q.ID, IsAvailable := decide (q.InventoryCount > 0),
                InventoryCount := q.InventoryCount } := by
  have hget : r.GetProductByID i = .ok p := getProductByID_of_lookup hstored
  have hcheck : r.CheckProductAvailability i =
      .ok { ProductID := p.ID, IsAvailable := decide (p.InventoryCount > 0),
            InventoryCount := p.InventoryCount } := by
    simp [InMemoryRepository.CheckProductAvailability, hget]
  refine ⟨?_, ?_, ?_, p, hget, hcheck⟩
  · rw [hcheck, hid, hn]
  · intro h0
    rw [hcheck, hid, hn, h0]
    rfl
  · intro h1
    rw [hcheck, hid, hn, h1]
    rfl

/-- Witness of C8: the product without stock stored under `"u2"` in `repo2`. -/
theorem checkProductAvailability_stored_witness :
    repo2.CheckProductAvailability "u2" =
        .ok { ProductID := "u2", IsAvailable := decide ((0 : Int) > 0), InventoryCount := 0 } ∧
      ((0 : Int) = 0 → repo2.CheckProductAvailability "u2" =
        .ok { ProductID := "u2", IsAvailable := false, InventoryCount := 0 }) ∧
      ((0 : Int) = 1 → repo2.CheckProductAvailability "u2" =
        .ok { ProductID := "u2", IsAvailable := true, InventoryCount := 1 }) ∧
      ∃ q, repo2.GetProductByID "u2" = .ok q ∧
        repo2.CheckProductAvailability "u2" =
          .ok { ProductID := q.ID, IsAvailable := decide (q.InventoryCount > 0),
                InventoryCount := q.InventoryCount } :=
  checkProductAvailability_stored repo2 "u2" 0
    { phone with ID := "u2", CreatedAt := 7, UpdatedAt := 7 } (by decide) rfl rfl

/-! ## The handlers: binding and status mapping -/

theorem intercalate_go_length (sep : String) (as : List String) (acc : String) :
    acc.length ≤ (String.intercalate.go acc sep as).length := by
  induction as generalizing acc with
  | nil => simp [String.intercalate.go]
  | cons a as ih =>
    simp only [String.intercalate.go]
    refine le_trans ?_ (ih _)
    simp only [String.length_append]
    omega

theorem fieldError_length_pos (e : FieldError) : 0 < e.Error.length := by
  simp only [FieldError.Error, String.length_append]
  have h5 : "Key: ".length = 5 := by decide
  omega

theorem validationError_ne_empty (e : FieldError) (es : List FieldError) :
    (validationError (e :: es)).Error ≠ "" := by
  intro h
  have hlen : 0 < (validationError (e :: es)).Error.length := by
    simp only [validationError, GoError.Error, List.map_cons, String.intercalate]
    exact lt_of_lt_of_le (fieldError_length_pos e) (intercalate_go_length _ _ _)
  rw [h] at hlen
  exact absurd hlen (by decide)

theorem shouldBindJSON_of_valid (p : Product) (hname : p.Name ≠ "")
    (hdesc : p.Description ≠ "") (hprice : p.Price > 0) (hinv : p.InventoryCount > 0) :
    ShouldBindJSON (.ok p) = .ok p := by
  have hp0 : p.Price ≠ 0 := ne_of_gt hprice
  have hi0 : p.InventoryCount ≠ 0 := ne_of_gt hinv
  have hi1 : p.InventoryCount ≥ 0 := le_of_lt hinv
  simp [ShouldBindJSON, validate, validateName, validateDescription, validatePrice,
    validateInventoryCount, requiredString, requiredFloat, requiredInt, gtZero, gteZero,
    hname, hdesc, hprice, hp0, hi0, hi1]

theorem validate_ne_nil_of_violation (p : Product)
    (hbad : p.Name = "" ∨ p.Description = "" ∨ p.Price ≤ 0 ∨ p.InventoryCount < 0) :
    validate p ≠ [] := by
  intro hnil
  simp only [validate, List.append_eq_nil] at hnil
  obtain ⟨⟨⟨h1, h2⟩, h3⟩, h4⟩ := hnil
  rcases hbad with h | h | h | h
  · simp [validateName, requiredString, h] at h1
  · simp [validateDescription, requiredString, h] at h2
  · by_cases h0 : p.Price = 0
    · simp [validatePrice, requiredFloat, h0] at h3
    · simp [validatePrice, requiredFloat, gtZero, h0, not_lt.2 h] at h3
  · have h0 : p.InventoryCount ≠ 0 := ne_of_lt h
    simp [validateInventoryCount, requiredInt, gteZero, h0, h] at h4

theorem validate_ne_nil_of_zero_inventory (p : Product) (h : p.InventoryCount = 0) :
    validate p ≠ [] := by
  intro hnil
  simp only [validate, List.append_eq_nil] at hnil
  simp [validateInventoryCount, requiredInt, h] at hnil

theorem shouldBindJSON_of_invalid (p : Product) (h : validate p ≠ []) :
    ShouldBindJSON (.ok p) = .error (validationError (validate p)) := by
  cases hv : validate p with
  | nil => exact absurd hv h
  | cons e es => simp [ShouldBindJSON, hv]

/-- C9: a create or update request whose body breaks a validation constraint
(empty name, empty description, price at most zero, negative inventory count)
is answered with status 400 and an object whose `error` is the non-empty text of
the validation error; the answer is the same for every repository and every
state of it, and the state is left as it was. -/
theorem invalid_body_bad_request (p : Product)
    (hbad : p.Name = "" ∨ p.Description = "" ∨ p.Price ≤ 0 ∨ p.InventoryCount < 0) :
    (validationError (validate p)).Error ≠ "" ∧
      ∀ (σ : Type) (h : ProductHandler σ) (s : σ) (env : Env) (id : String),
        h.CreateProduct s env ⟨id, .ok p⟩ =
            (⟨StatusBadRequest, .errorObject (validationError (validate p)).Error⟩, s) ∧
          h.UpdateProduct s env ⟨id, .ok p⟩ =
            (⟨StatusBadRequest, .errorObject (validationError (validate p)).Error⟩, s) := by
  have hv := validate_ne_nil_of_violation p hbad
  have hbind := shouldBindJSON_of_invalid p hv
  constructor
  · cases hl : validate p with
    | nil => exact absurd hl hv
    | cons e es => exact validationError_ne_empty e es
  · intro σ h s env id
    simp [ProductHandler.CreateProduct, ProductHandler.UpdateProduct, hbind]

/-- Witness of C9: a body with price `-5`. -/
theorem invalid_body_bad_request_witness :
    (validationError (validate { laptop with Price := -5 })).Error ≠ "" ∧
      ∀ (σ : Type) (h : ProductHandler σ) (s : σ) (env : Env) (id : String),
        h.CreateProduct s env ⟨id, .ok { laptop with Price := -5 }⟩ =
            (⟨StatusBadRequest,
              .errorObject (validationError (validate { laptop with Price := -5 })).Error⟩, s) ∧
          h.UpdateProduct s env ⟨id, .ok { laptop with Price := -5 }⟩ =
            (⟨StatusBadRequest,
              .errorObject (validationError (validate { laptop with Price := -5 })).Error⟩, s) :=
  invalid_body_bad_request { laptop with Price := -5 } (by decide)

theorem zero_inventory_bad_request {σ : Type} (h : ProductHandler σ) (s : σ) (env : Env)
    (id : String) (p : Product) (hzero : p.InventoryCount = 0) :
    (h.CreateProduct s env ⟨id, .ok p⟩).1.status = StatusBadRequest ∧
      (h.CreateProduct s env ⟨id, .ok p⟩).2 = s ∧
      (h.UpdateProduct s env ⟨id, .ok p⟩).1.status = StatusBadRequest ∧
      (h.UpdateProduct s env ⟨id, .ok p⟩).2 = s := by
  have hbind := shouldBindJSON_of_invalid p (validate_ne_nil_of_zero_inventory p hzero)
  simp [ProductHandler.CreateProduct, ProductHandler.UpdateProduct, hbind]

theorem updateProduct_handler_of_valid (r : InMemoryRepository) (env : Env) (id : String)
    (p p0 : Product) (hname : p.Name ≠ "") (hdesc : p.Description ≠ "") (hprice : p.Price > 0)
    (hinv : p.InventoryCount > 0) (hstored : r.products.lookup id = some p0) :
    memoryHandler.UpdateProduct r env ⟨id, .ok p⟩ =
      (⟨StatusOK, .product { p with ID := id }⟩,
        ⟨r.products.insert id { p with ID := id, UpdatedAt := env.now }⟩) := by
  have hbind := shouldBindJSON_of_valid p hname hdesc hprice hinv
  have hupd := updateProduct_of_present r env { p with ID := id } p0 hstored
  simp only [ProductHandler.UpdateProduct, memoryHandler, NewProductHandler,
    InMemoryRepository.repo, hbind, getProductByID_of_lookup hstored]
  rw [hupd]

theorem createProduct_handler_of_valid (r : InMemoryRepository) (env : Env) (id : String)
    (p : Product) (hname : p.Name ≠ "") (hdesc : p.Description ≠ "") (hprice : p.Price > 0)
    (hinv : p.InventoryCount > 0) (hfresh : r.products.lookup (createID env p) = none) :
    (memoryHandler.CreateProduct r env ⟨id, .ok p⟩).1 =
      ⟨StatusCreated,
        .product { p with ID := createID env p, CreatedAt := env.now, UpdatedAt := env.now }⟩ := by
  have hbind := shouldBindJSON_of_valid p hname hdesc hprice hinv
  simp only [ProductHandler.CreateProduct, memoryHandler, NewProductHandler,
    InMemoryRepository.repo, hbind]
  rw [createProduct_of_absent r env p hfresh]

/-- C3, at the failing input: a body with a name, a description, a positive
price and `inventoryCount` 0 is answered with status 400 by the update handler
(on the stored id `"u1"`) and by the create handler, and the availability of
`"u1"` afterwards is still that of the ten pieces in stock. -/
theorem zero_inventory_body_rejected :
    (memoryHandler.UpdateProduct repo1 ⟨"", 9⟩
        ⟨"u1", .ok { laptop with InventoryCount := 0 }⟩).1.status = StatusBadRequest ∧
      ((memoryHandler.UpdateProduct repo1 ⟨"", 9⟩
        ⟨"u1", .ok { laptop with InventoryCount := 0 }⟩).2.CheckProductAvailability "u1" =
          .ok { ProductID := "u1", IsAvailable := true, InventoryCount := 10 }) ∧
      (memoryHandler.CreateProduct NewInMemoryRepository ⟨"u1", 5⟩
        ⟨"", .ok { laptop with InventoryCount := 0 }⟩).1.status = StatusBadRequest ∧
      (memoryHandler.CreateProduct NewInMemoryRepository ⟨"u1", 5⟩
        ⟨"", .ok { laptop with InventoryCount := 0 }⟩).2.GetProducts = .ok [] := by
  decide

/-- C10, at the failing input: the update handler answers a valid body for the
stored id `"u1"` at instant `9` with status 200 and the bound body, whose
`UpdatedAt` is the zero value the body carried, while `GetProductByID("u1")`
right after returns the stored product with `UpdatedAt = 9`. -/
theorem updateProduct_response_not_stored :
    (memoryHandler.UpdateProduct repo1 ⟨"", 9⟩ ⟨"u1", .ok laptop⟩).1 =
        ⟨StatusOK, .product { laptop with ID := "u1", UpdatedAt := 0 }⟩ ∧
      (memoryHandler.UpdateProduct repo1 ⟨"", 9⟩ ⟨"u1", .ok laptop⟩).2.GetProductByID "u1" =
        .ok { laptop with ID := "u1", UpdatedAt := 9 } ∧
      ({ laptop with ID := "u1", UpdatedAt := 0 } : Product) ≠
        { laptop with ID := "u1", UpdatedAt := 9 } := by
  decide

theorem validate_with_id (p : Product) (j : String) :
    validate { p with ID := j } = validate p := rfl

theorem validate_eq_nil_of_bound {p : Product} (hvalid : ShouldBindJSON (.ok p) = .ok p) :
    validate p = [] := by
  cases hv : validate p with
  | nil => rfl
  | cons e es =>
    rw [shouldBindJSON_of_invalid p (by rw [hv]; exact List.cons_ne_nil e es)] at hvalid
    cases hvalid

theorem shouldBindJSON_of_validate_nil {p : Product} (hv : validate p = []) :
    ShouldBindJSON (.ok p) = .ok p := by
  simp [ShouldBindJSON, hv]

theorem updateProduct_handler_of_bound (r : InMemoryRepository) (env : Env) (id : String)
    (p p0 : Product) (hvalid : ShouldBindJSON (.ok p) = .ok p)
    (hstored : r.products.lookup id = some p0) :
    memoryHandler.UpdateProduct r env ⟨id, .ok p⟩ =
      (⟨StatusOK, .product { p with ID := id }⟩,
        ⟨r.products.insert id { p with ID := id, UpdatedAt := env.now }⟩) := by
  have hupd := updateProduct_of_present r env { p with ID := id } p0 hstored
  simp only [ProductHandler.UpdateProduct, memoryHandler, NewProductHandler,
    InMemoryRepository.repo, hvalid, getProductByID_of_lookup hstored]
  rw [hupd]

/-- C11: for an update request with path id `i` present in the store and a body
the binding accepts, whatever id `j` the body carries, the update handler stores
the body under `i` with its id field set to `i`; the outcome is the same for
every body id `j`, and every other key, the body id included when it differs
from `i`, reads what it read before: a product stored under `j` is unchanged
and no entry appears under `j`. -/
theorem updateProduct_handler_forces_path_id (r : InMemoryRepository) (env : Env)
    (i : String) (p p0 : Product) (hstored : r.products.lookup i = some p0)
    (hvalid : ShouldBindJSON (.ok p) = .ok p) :
    (memoryHandler.UpdateProduct r env ⟨i, .ok p⟩).1 =
        ⟨StatusOK, .product { p with ID := i }⟩ ∧
      (memoryHandler.UpdateProduct r env ⟨i, .ok p⟩).2.products.lookup i =
        some { p with ID := i, UpdatedAt := env.now } ∧
      (∀ j, memoryHandler.UpdateProduct r env ⟨i, .ok { p with ID := j }⟩ =
        memoryHandler.UpdateProduct r env ⟨i, .ok p⟩) ∧
      (∀ k, k ≠ i →
        (memoryHandler.UpdateProduct r env ⟨i, .ok p⟩).2.products.lookup k =
          r.products.lookup k) ∧
      (p.ID ≠ i →
        (memoryHandler.UpdateProduct r env ⟨i, .ok p⟩).2.products.lookup p.ID =
          r.products.lookup p.ID) := by
  have hv : validate p = [] := validate_eq_nil_of_bound hvalid
  rw [updateProduct_handler_of_bound r env i p p0 hvalid hstored]
  refine ⟨rfl, AList.lookup_insert _, ?_, fun k hk => AList.lookup_insert_ne hk,
    fun hj => AList.lookup_insert_ne hj⟩
  intro j
  have hvj : ShouldBindJSON (.ok { p with ID := j }) = .ok { p with ID := j } :=
    shouldBindJSON_of_validate_nil (by rw [validate_with_id]; exact hv)
  rw [updateProduct_handler_of_bound r env i { p with ID := j } p0 hvj hstored]

/-- Witness of C11: a body carrying the id `"u2"`, itself stored, put to the
path id `"u1"` of `repo2`. -/
theorem updateProduct_handler_forces_path_id_witness :
    (memoryHandler.UpdateProduct repo2 ⟨"", 9⟩ ⟨"u1", .ok { laptop with ID := "u2" }⟩).1 =
        ⟨StatusOK, .product { laptop with ID := "u1" }⟩ ∧
      (memoryHandler.UpdateProduct repo2 ⟨"", 9⟩
          ⟨"u1", .ok { laptop with ID := "u2" }⟩).2.products.lookup "u1" =
        some { laptop with ID := "u1", UpdatedAt := 9 } ∧
      (∀ j, memoryHandler.UpdateProduct repo2 ⟨"", 9⟩ ⟨"u1", .ok { laptop with ID := j }⟩ =
        memoryHandler.UpdateProduct repo2 ⟨"", 9⟩ ⟨"u1", .ok { laptop with ID := "u2" }⟩) ∧
      (∀ k, k ≠ "u1" →
        (memoryHandler.UpdateProduct repo2 ⟨"", 9⟩
            ⟨"u1", .ok { laptop with ID := "u2" }⟩).2.products.lookup k =
          repo2.products.lookup k) ∧
      ("u2" ≠ "u1" →
        (memoryHandler.UpdateProduct repo2 ⟨"", 9⟩
            ⟨"u1", .ok { laptop with ID := "u2" }⟩).2.products.lookup "u2" =
          repo2.products.lookup "u2") :=
  updateProduct_handler_forces_path_id repo2 ⟨"", 9⟩ "u1" { laptop with ID := "u2" }
    { laptop with ID := "u1", CreatedAt := 5, UpdatedAt := 5 } (by decide) (by decide)

theorem handlers_not_found_on_any_error {σ : Type} (h : ProductHandler σ) (s : σ)
    (env : Env) (c : Context) (p : Product) (e : GoError) (s1 : σ)
    (hbody : ShouldBindJSON c.body = .ok p)
    (hget : h.repo.GetProductByID s c.id = (.error e, s1)) :
    (h.GetProductByID s c).1 = ⟨StatusNotFound, .errorObject "Product not found"⟩ ∧
      (h.UpdateProduct s env c).1 = ⟨StatusNotFound, .errorObject "Product not found"⟩ ∧
      (h.DeleteProduct s c).1 = ⟨StatusNotFound, .errorObject "Product not found"⟩ := by
  simp [ProductHandler.GetProductByID, ProductHandler.UpdateProduct,
    ProductHandler.DeleteProduct, hbody, hget]

/-- C12, at the failing input: over the placeholder repository, whose
`GetProductByID` and `CheckProductAvailability` fail with the error
"not implemented" (not the not-found error), the get-by-id, availability, update
and delete handlers each answer 404 with "Product not found", not 500. -/
theorem stub_error_answered_not_found :
    (CosmosDBRepository.repo.GetProductByID ⟨⟩ "x").1 = .error errNotImplemented ∧
      (CosmosDBRepository.repo.CheckProductAvailability ⟨⟩ "x").1 =
        .error errNotImplemented ∧
      errNotImplemented ≠ errNotFound ∧
      (cosmosHandler.GetProductByID ⟨⟩ ⟨"x", .error ⟨"EOF"⟩⟩).1 =
        ⟨StatusNotFound, .errorObject "Product not found"⟩ ∧
      (cosmosHandler.CheckProductAvailability ⟨⟩ ⟨"x", .error ⟨"EOF"⟩⟩).1 =
        ⟨StatusNotFound, .errorObject "Product not found"⟩ ∧
      (cosmosHandler.UpdateProduct ⟨⟩ ⟨"", 9⟩ ⟨"x", .ok laptop⟩).1 =
        ⟨StatusNotFound, .errorObject "Product not found"⟩ ∧
      (cosmosHandler.DeleteProduct ⟨⟩ ⟨"x", .error ⟨"EOF"⟩⟩).1 =
        ⟨StatusNotFound, .errorObject "Product not found"⟩ := by
  decide

/-! ## Listing and the invariant of the map -/

theorem lookup_of_mem_entries (m : AList (fun _ : String => Product))
    (e : Sigma (fun _ : String => Product)) (he : e ∈ m.entries) :
    m.lookup e.1 = some e.2 :=
  AList.mem_lookup_iff.2 he

/-- C13: `GetProducts` never fails; the slice it returns has one element for
each stored id, the product stored under that id, and nothing else, so its
length is the number of stored ids (which are pairwise distinct); the store is
left as it is, and the empty store gives the empty slice. -/
theorem getProducts_lists_store (r : InMemoryRepository) :
    (∃ ps, r.GetProducts = .ok ps ∧
        ps.length = r.products.keys.length ∧
        ps.map some = r.products.keys.map (fun k => r.products.lookup k) ∧
        ∀ q, q ∈ ps ↔ ∃ k, r.products.lookup k = some q) ∧
      r.products.keys.Nodup ∧
      (InMemoryRepository.repo.GetProducts r).2 = r ∧
      NewInMemoryRepository.GetProducts = .ok [] := by
  refine ⟨⟨_, rfl, ?_, ?_, mem_values_iff r.products⟩, r.products.keys_nodup, rfl, rfl⟩
  · simp [AList.keys, List.keys]
  · simp only [AList.keys, List.keys, List.map_map]
    apply List.map_congr_left
    intro e he
    exact (lookup_of_mem_entries r.products e he).symm

theorem keyed_insert {r : InMemoryRepository} (hinv : KeyedByNonEmptyID r) (q : Product)
    (hq : q.ID ≠ "") : KeyedByNonEmptyID ⟨r.products.insert q.ID q⟩ := by
  intro k p hk
  by_cases hkq : k = q.ID
  · subst hkq
    rw [AList.lookup_insert] at hk
    injection hk with hk
    subst hk
    exact ⟨rfl, hq⟩
  · rw [AList.lookup_insert_ne hkq] at hk
    exact hinv k p hk

theorem keyed_new : KeyedByNonEmptyID NewInMemoryRepository := by
  intro k p hk
  simp [NewInMemoryRepository] at hk

theorem createID_ne_empty (env : Env) (p : Product) (hgen : env.uuid ≠ "") :
    createID env p ≠ "" := by
  unfold createID
  split_ifs with hid
  · exact hgen
  · exact hid

theorem keyed_createProduct {r : InMemoryRepository} (hinv : KeyedByNonEmptyID r) (env : Env)
    (p : Product) (hgen : env.uuid ≠ "") : KeyedByNonEmptyID (r.CreateProduct env p).2 := by
  cases hl : r.products.lookup (createID env p) with
  | some p0 =>
    rw [createProduct_of_present r env p p0 hl]
    exact hinv
  | none =>
    rw [createProduct_of_absent r env p hl]
    exact keyed_insert hinv
      { p with ID := createID env p, CreatedAt := env.now, UpdatedAt := env.now }
      (createID_ne_empty env p hgen)

theorem keyed_updateProduct {r : InMemoryRepository} (hinv : KeyedByNonEmptyID r) (env : Env)
    (p : Product) : KeyedByNonEmptyID (r.UpdateProduct env p).2 := by
  cases hl : r.products.lookup p.ID with
  | some p0 =>
    rw [updateProduct_of_present r env p p0 hl]
    exact keyed_insert hinv { p with UpdatedAt := env.now } (hinv p.ID p0 hl).2
  | none =>
    rw [updateProduct_of_absent r env p hl]
    exact hinv

theorem keyed_deleteProduct {r : InMemoryRepository} (hinv : KeyedByNonEmptyID r)
    (id : String) : KeyedByNonEmptyID (r.DeleteProduct id).2 := by
  cases hl : r.products.lookup id with
  | some p0 =>
    rw [deleteProduct_of_present r id p0 hl]
    intro k p hk
    have hne : k ≠ id := by
      rintro rfl
      rw [AList.lookup_erase] at hk
      cases hk
    rw [AList.lookup_erase_ne hne] at hk
    exact hinv k p hk
  | none =>
    rw [deleteProduct_of_absent r id hl]
    exact hinv

theorem keyed_foldl (calls : List Call) (hgen : GeneratedIDsNonEmpty calls) :
    ∀ r, KeyedByNonEmptyID r → KeyedByNonEmptyID (calls.foldl Call.apply r) := by
  induction calls with
  | nil => intro r hr; exact hr
  | cons c cs ih =>
    intro r hr
    have hcs : GeneratedIDsNonEmpty cs :=
      fun c1 hc1 env product heq => hgen c1 (List.mem_cons_of_mem c hc1) env product heq
    refine ih hcs _ ?_
    cases c with
    | create env product =>
      exact keyed_createProduct hr env product
        (hgen _ (List.mem_cons_self _ _) env product rfl)
    | update env product => exact keyed_updateProduct hr env product
    | delete id => exact keyed_deleteProduct hr id

theorem ids_eq_keys {r : InMemoryRepository} (hinv : KeyedByNonEmptyID r) :
    r.products.entries.map (fun e => e.2.ID) = r.products.keys := by
  simp only [AList.keys, List.keys]
  apply List.map_congr_left
  intro e he
  exact (hinv e.1 e.2 (lookup_of_mem_entries r.products e he)).1

/-- C14: in every store reached from the empty store by a sequence of
`CreateProduct`, `UpdateProduct` and `DeleteProduct` calls whose generated ids
are non-empty, each map entry is stored under the id of its own product, that id
is not the empty string, and the ids of the stored products are pairwise
distinct. -/
theorem reachable_unique_nonempty_ids (calls : List Call)
    (hgen : GeneratedIDsNonEmpty calls) :
    (∀ k p, (run calls).products.lookup k = some p → p.ID = k ∧ p.ID ≠ "") ∧
      ((run calls).products.entries.map (fun e => e.2.ID)).Nodup := by
  have hinv : KeyedByNonEmptyID (run calls) := keyed_foldl calls hgen _ keyed_new
  refine ⟨fun k p hk => ?_, ?_⟩
  · obtain ⟨h1, h2⟩ := hinv k p hk
    exact ⟨h1, by rw [h1]; exact h2⟩
  · rw [ids_eq_keys hinv]
    exact (run calls).products.keys_nodup

theorem sampleCalls_generated : GeneratedIDsNonEmpty sampleCalls := by
  intro c hc env product heq
  simp only [sampleCalls, List.mem_cons, List.mem_singleton, List.not_mem_nil, or_false] at hc
  rcases hc with rfl | rfl | rfl | rfl | rfl | rfl <;> cases heq <;> decide

/-- Witness of C14: the store reached by `sampleCalls`. -/
theorem reachable_unique_nonempty_ids_witness :
    GeneratedIDsNonEmpty sampleCalls ∧
      ((∀ k p, (run sampleCalls).products.lookup k = some p → p.ID = k ∧ p.ID ≠ "") ∧
        ((run sampleCalls).products.entries.map (fun e => e.2.ID)).Nodup) :=
  ⟨sampleCalls_generated, reachable_unique_nonempty_ids sampleCalls sampleCalls_generated⟩

end ProductService
